import Mathlib

/-!
Verification of the pulse-simulation and energy-histogramming script `sp.py`.

The script synthesizes a bi-exponential detector pulse, adds bounded uniform
integer noise and a baseline, extracts an integer energy by summing a fixed
window and right-shifting by 6 bits, and accumulates 300 such energies per
extraction variant into 16384-bin histograms.

Embedding conventions:
* numpy float arrays are modelled as `List ℝ` (real-valued idealization of
  IEEE doubles); integer arrays as `List ℤ`.
* `np.random.randint` is an external collaborator; it is modelled from its
  documented contract: draws come from an entropy stream `s : ℕ → ℕ`, each
  mapped into the half-open range `[low, high)`, and the call fails
  (ValueError) unless `low < high`.  Fallible calls return `Option`.
* Python's `>>` on `int` is embedded at the bit level as a two's-complement
  arithmetic right shift (`asr`).
* numpy `astype(int)` truncates toward zero (`truncToZero`).
* Indexing `h[i] += 1` follows Python semantics: a negative index `i` with
  `-len ≤ i` wraps to `len + i`; any other out-of-range index raises
  (modelled as `Option.none`).
-/

namespace SP

/-- Number of elements of the Python slice `x[:k]` of an array of size
`size`: a nonnegative `k` is clamped to `size`, a negative `k` counts from
the end (numpy slicing never raises). -/
def sliceLen (size : ℕ) (k : ℤ) : ℕ :=
  if 0 ≤ k then min k.toNat size else size - (-k).toNat

/-- The bi-exponential pulse value
`(tau1/(tau1-tau2)) * height * (exp (-t/tau1) - exp (-t/tau2))`
computed at sample offset `t` — the arithmetic of line 24-26 of `sp.py`. -/
noncomputable def pulseShape (tau1 tau2 height : ℝ) (t : ℝ) : ℝ :=
  tau1 / (tau1 - tau2) * height * (Real.exp (-t / tau1) - Real.exp (-t / tau2))

/-- `pulse_model(i, tau1, tau2, height, start)` where `i = [0, …, length-1]`
(as supplied by `np.fromfunction` with shape `(length,)`):
`np.append(np.zeros(start), shape applied to i[:i.size - start])`. -/
noncomputable def pulse_model (length start : ℕ) (tau1 tau2 height : ℝ) : List ℝ :=
  List.replicate start 0 ++
    (List.range (sliceLen length ((length : ℤ) - (start : ℤ)))).map
      (fun j : ℕ => pulseShape tau1 tau2 height (j : ℝ))

open Classical in
/-- numpy `astype(int)`: truncation toward zero (C-style float-to-int cast). -/
noncomputable def truncToZero (x : ℝ) : ℤ := if 0 ≤ x then ⌊x⌋ else ⌈x⌉

/-- `pulse(length, start, height, tau1, tau2)`:
`np.fromfunction(pulse_model, (length,), …).astype(int)`.
`np.fromfunction` calls `pulse_model` once on the index array and returns
its result unchecked (it does not enforce the requested shape). -/
noncomputable def pulse (length start : ℕ) (height tau1 tau2 : ℝ) : List ℤ :=
  (pulse_model length start tau1 tau2 height).map truncToZero

/-- Signal length (`tlen = 100000`). -/
def tlen : ℕ := 100000

/-- Pulse start position (`ppos = 50000`). -/
def ppos : ℕ := 50000

/-- `np.random.randint(low, high, (length,))` driven by entropy stream `s`:
fails (ValueError) unless `low < high`, otherwise returns `length` draws in
`[low, high)`. -/
def randint (s : ℕ → ℕ) (low high : ℤ) (length : ℕ) : Option (List ℤ) :=
  if low < high then
    some ((List.range length).map (fun j => low + (s j : ℤ) % (high - low)))
  else none

/-- `noise(length, amplitude) = np.random.randint(-1*amplitude, amplitude, (length,))`. -/
def noise (s : ℕ → ℕ) (length : ℕ) (amplitude : ℤ) : Option (List ℤ) :=
  randint s (-1 * amplitude) amplitude length

/-- Summing-window lower bound (`start_index = 50032`). -/
def start_index : ℕ := 50032

/-- Summing-window upper bound (`end_index = 50096`). -/
def end_index : ℕ := 50096

/-- The Python slice `x[a:b]` for `0 ≤ a ≤ b`. -/
def window (x : List ℤ) (a b : ℕ) : List ℤ := (x.drop a).take (b - a)

/-- Two's-complement arithmetic right shift: the embedding of Python's `>>`
on `int` (sign-extending; `Int.negSucc m = -(m+1)` shifts to
`-(m >>> b + 1)`). -/
def asr : ℤ → ℕ → ℤ
  | Int.ofNat m, b => Int.ofNat (m >>> b)
  | Int.negSucc m, b => Int.negSucc (m >>> b)

/-- Plain-sum energy (line 103): `np.sum(x[start_index:end_index]) >> 6`. -/
def h1energy (x : List ℤ) : ℤ := asr (window x start_index end_index).sum 6

/-- Subtracted-sum energy (line 113):
`np.sum(x[start_index:end_index]) - np.sum(x[start_index-1000:end_index-1000]) >> 6`.
Python's `>>` binds looser than `-`, so the parse is `(a - b) >> 6`. -/
def h2energy (x : List ℤ) : ℤ :=
  asr ((window x start_index end_index).sum
      - (window x (start_index - 1000) (end_index - 1000)).sum) 6

/-- Increment the count at (nonnegative, in-bounds) position `k`. -/
def bump (h : List ℕ) (k : ℕ) : List ℕ := h.set k (h.getD k 0 + 1)

/-- `h[e] += 1` with Python index semantics: `0 ≤ e < len` indexes directly,
`-len ≤ e < 0` wraps to `len + e`, anything else raises IndexError. -/
def record (h : List ℕ) (e : ℤ) : Option (List ℕ) :=
  if 0 ≤ e ∧ e < (h.length : ℤ) then some (bump h e.toNat)
  else if 0 ≤ e + (h.length : ℤ) ∧ e < 0 then some (bump h (e + (h.length : ℤ)).toNat)
  else none

/-- Histogram size: `np.zeros(16384)`. -/
def histSize : ℕ := 16384

/-- One loop iteration's histogram update, threading the failure case. -/
def recordStep (acc : Option (List ℕ)) (e : ℤ) : Option (List ℕ) :=
  acc.bind (fun h => record h e)

/-- The accumulation loop (lines 100-104 / 110-114) applied to the list of
per-trial energies: start from `np.zeros(16384)` and record each energy. -/
def runHist (es : List ℤ) : Option (List ℕ) :=
  es.foldl recordStep (some (List.replicate histSize 0))

/-- Pulse height used by the script: `1.332 * 200 * mvbin`, `mvbin = 1.0/0.122`. -/
noncomputable def heightScale : ℝ := 1.332 * 200 * (1.0 / 0.122)

/-- The noiseless pulse array generated in every trial:
`pulse(tlen, ppos, 1.332*200*mvbin, dtau, rtau)` with `dtau = 5000`, `rtau = 2`. -/
noncomputable def pulseX : List ℤ := pulse tlen ppos heightScale 5000 2

/-- One trial's synthesized signal, `pulse + noise + 8192`, given the draws
`noiseCall : ℕ → ℤ` produced by that trial's `noise` call (elementwise
addition of equal-length arrays expressed index-wise). -/
noncomputable def trialSignal (noiseCall : ℕ → ℤ) : List ℤ :=
  (List.range tlen).map (fun k => pulseX.getD k 0 + noiseCall k + 8192)

/-- Signal synthesized in trial `t` of the plain-sum loop (lines 101-104).
Counting the script's `noise` calls from 0 (line 73 is call 0), the first
loop's trial `t` consumes call `1 + t` of the shared random source. -/
noncomputable def h1TrialSignal (draw : ℕ → ℕ → ℤ) (t : ℕ) : List ℤ :=
  trialSignal (draw (1 + t))

/-- Signal synthesized in trial `t` of the subtracted-sum loop (lines
111-114): the second loop runs after the first, so its trial `t` consumes
call `301 + t` of the shared random source. -/
noncomputable def h2TrialSignal (draw : ℕ → ℕ → ℤ) (t : ℕ) : List ℤ :=
  trialSignal (draw (301 + t))

/-! ### Arithmetic right shift is floor division -/

theorem asr_eq_fdiv (s : ℤ) (b : ℕ) : asr s b = Int.fdiv s ((2 : ℤ) ^ b) := by
  have h2 : ((2 : ℤ) ^ b) = Int.ofNat (2 ^ b) := by
    rw [Int.ofNat_eq_natCast]
    push_cast
    ring
  obtain ⟨k, hk⟩ : ∃ k, (2 : ℕ) ^ b = k + 1 := by
    have h := Nat.two_pow_pos b
    exact ⟨2 ^ b - 1, by omega⟩
  cases s with
  | ofNat m =>
    show Int.ofNat (m >>> b) = _
    rw [h2, hk, Nat.shiftRight_eq_div_pow, hk]
    cases m with
    | zero => simp [Int.fdiv]
    | succ m => rfl
  | negSucc m =>
    show Int.negSucc (m >>> b) = _
    rw [h2, hk, Nat.shiftRight_eq_div_pow, hk]
    rfl

theorem window_replicate_one (a b n : ℕ) (hb : b ≤ n) :
    (window (List.replicate n (1 : ℤ)) a b).sum = (b - a : ℕ) := by
  simp only [window, List.drop_replicate, List.take_replicate, List.sum_replicate,
    nsmul_eq_mul, mul_one, Nat.cast_inj]
  omega

/-! ### Pulse shape -/

theorem sliceLen_of_le (L s : ℕ) (h : s ≤ L) :
    sliceLen L ((L : ℤ) - (s : ℤ)) = L - s := by
  rw [sliceLen, if_pos (by omega)]
  omega

theorem truncToZero_zero : truncToZero 0 = 0 := by
  simp [truncToZero]

theorem pulseShape_zero (tau1 tau2 height : ℝ) : pulseShape tau1 tau2 height 0 = 0 := by
  simp [pulseShape]

theorem pulse_length (L s : ℕ) (tau1 tau2 height : ℝ) (h : s ≤ L) :
    (pulse L s height tau1 tau2).length = L := by
  rw [pulse, pulse_model, sliceLen_of_le L s h]
  simp only [List.length_map, List.length_append, List.length_replicate, List.length_range]
  omega

theorem pulse_getD (L s : ℕ) (tau1 tau2 height : ℝ) (k : ℕ) (hsL : s ≤ L) (hkL : k < L) :
    (pulse L s height tau1 tau2).getD k 0 =
      if k < s then 0
      else truncToZero (pulseShape tau1 tau2 height ((k - s : ℕ) : ℝ)) := by
  rw [pulse, pulse_model, sliceLen_of_le L s hsL, List.getD_eq_getElem?_getD,
    List.getElem?_map]
  by_cases hk : k < s
  · rw [List.getElem?_append_left (by simpa using hk), List.getElem?_replicate,
      if_pos hk, if_pos hk]
    simp [truncToZero_zero]
  · have hs : s ≤ k := by omega
    rw [List.getElem?_append_right (by simpa using hs), if_neg hk, List.length_replicate,
      List.getElem?_map, List.getElem?_range (show k - s < L - s by omega)]
    rfl

/-! ### Histogram accumulation -/

theorem bump_length (h : List ℕ) (k : ℕ) : (bump h k).length = h.length := by
  simp [bump]

theorem bump_sum (h : List ℕ) (k : ℕ) (hk : k < h.length) :
    (bump h k).sum = h.sum + 1 := by
  induction h generalizing k with
  | nil => simp at hk
  | cons a t ih =>
    cases k with
    | zero => simp [bump]; omega
    | succ k =>
      have hk2 : k < t.length := by simpa using hk
      have := ih k hk2
      simp only [bump, List.set_cons_succ, List.getD_cons_succ, List.sum_cons] at *
      omega

theorem record_in_range (h : List ℕ) (e : ℤ) (h0 : 0 ≤ e) (h1 : e < (h.length : ℤ)) :
    record h e = some (bump h e.toNat) := by
  rw [record, if_pos ⟨h0, h1⟩]

theorem runHist_invariant (es : List ℤ) : ∀ h : List ℕ,
    (∀ e ∈ es, 0 ≤ e ∧ e < (h.length : ℤ)) →
    ∃ h2, es.foldl recordStep (some h) = some h2
      ∧ h2.length = h.length ∧ h2.sum = h.sum + es.length := by
  induction es with
  | nil => exact fun h _ => ⟨h, rfl, rfl, by simp⟩
  | cons e es ih =>
    intro h hr
    obtain ⟨he0, he1⟩ := hr e (List.mem_cons_self e es)
    have hrec : record h e = some (bump h e.toNat) := record_in_range h e he0 he1
    have hlt : e.toNat < h.length := by omega
    have hlen := bump_length h e.toNat
    obtain ⟨h2, hfold, hl2, hs2⟩ := ih (bump h e.toNat)
      (fun d hd => by
        have := hr d (List.mem_cons_of_mem e hd)
        rw [hlen]
        exact this)
    refine ⟨h2, ?_, by rw [hl2, hlen], ?_⟩
    · simpa [recordStep, hrec] using hfold
    · rw [hs2, bump_sum h e.toNat hlt]
      simp
      omega

theorem trialSignal_getD (noiseCall : ℕ → ℤ) (k : ℕ) (hk : k < tlen) :
    (trialSignal noiseCall).getD k 0 = pulseX.getD k 0 + noiseCall k + 8192 := by
  rw [trialSignal, List.getD_eq_getElem?_getD, List.getElem?_map, List.getElem?_range hk]
  rfl

end SP

/-- C3 counterexample: the two histogram loops do not share a trial set:
with the explicit noise source whose call `c` returns 0 for `c ≤ 300` and
1 afterwards, trial 0 of the plain-sum loop (noise call 1) and trial 0 of
the subtracted-sum loop (noise call 301) synthesize different signals. -/
theorem C3_separate_trials_counterexample :
    SP.h1TrialSignal (fun c _ => if c ≤ 300 then 0 else 1) 0
      ≠ SP.h2TrialSignal (fun c _ => if c ≤ 300 then 0 else 1) 0 := by
  intro h
  have h0 := congrArg (fun l => l.getD 0 0) h
  simp only [SP.h1TrialSignal, SP.h2TrialSignal] at h0
  rw [SP.trialSignal_getD _ 0 (by norm_num [SP.tlen]),
    SP.trialSignal_getD _ 0 (by norm_num [SP.tlen])] at h0
  norm_num at h0

/-- C3 (amended): each histogram loop synthesizes its own 300 fresh
signals — the plain-sum loop consumes noise calls 1..300 of the shared
random source and the subtracted-sum loop consumes the later calls
301..600 — so whenever the two corresponding draws differ at any sample
index, trial `t` of the first loop feeds its extractor a different signal
than trial `t` of the second loop; only the pulse parameters and trial
count coincide. -/
theorem C3_loops_draw_fresh_noise (draw : ℕ → ℕ → ℤ) (t k : ℕ) (hk : k < SP.tlen)
    (hne : draw (1 + t) k ≠ draw (301 + t) k) :
    SP.h1TrialSignal draw t ≠ SP.h2TrialSignal draw t := by
  intro h
  have h0 := congrArg (fun l => l.getD k 0) h
  simp only [SP.h1TrialSignal, SP.h2TrialSignal] at h0
  rw [SP.trialSignal_getD _ k hk, SP.trialSignal_getD _ k hk] at h0
  exact hne (by omega)

/-- Witness for C3 (amended): a concrete noise source differing between
call 1 and call 301 at sample 0 yields different trial-0 signals. -/
theorem C3_loops_draw_fresh_noise_witness :
    (0 < SP.tlen
      ∧ (if 1 + 0 ≤ 300 then (0 : ℤ) else 1) ≠ (if 301 + 0 ≤ 300 then (0 : ℤ) else 1))
    ∧ SP.h1TrialSignal (fun c _ => if c ≤ 300 then (0 : ℤ) else 1) 0
      ≠ SP.h2TrialSignal (fun c _ => if c ≤ 300 then (0 : ℤ) else 1) 0 :=
  ⟨⟨by norm_num [SP.tlen], by norm_num⟩,
   C3_loops_draw_fresh_noise (fun c _ => if c ≤ 300 then (0 : ℤ) else 1) 0 0
     (by norm_num [SP.tlen]) (by norm_num)⟩

/-- C4: for a batch of trials whose computed energies all lie in
`[0, 16384)`, the accumulation loop succeeds and the sum of all 16384 bin
counts of the resulting histogram equals the number of trials exactly
(each trial increments exactly one bin by one; counts are never
decremented). -/
theorem C4_histogram_conservation (es : List ℤ)
    (hrange : ∀ e ∈ es, 0 ≤ e ∧ e < (SP.histSize : ℤ)) :
    ∃ h, SP.runHist es = some h ∧ h.length = SP.histSize ∧ h.sum = es.length := by
  obtain ⟨h, hfold, hlen, hsum⟩ := SP.runHist_invariant es (List.replicate SP.histSize 0)
    (by simpa using hrange)
  exact ⟨h, hfold, by simpa using hlen, by simpa using hsum⟩

/-- Witness for C4: a concrete two-trial batch with in-range energies 3 and
5 conserves the total count 2. -/
theorem C4_histogram_conservation_witness :
    (∀ e ∈ [(3 : ℤ), 5], 0 ≤ e ∧ e < (SP.histSize : ℤ))
    ∧ ∃ h, SP.runHist [(3 : ℤ), 5] = some h ∧ h.length = SP.histSize ∧ h.sum = 2 :=
  ⟨by decide, C4_histogram_conservation [(3 : ℤ), 5] (by decide)⟩

/-- C10: a negative energy `e` with `-16384 ≤ e < 0` wraps around: the
update increments bin `16384 + e`, raises no error, and the trial still
contributes one count to the histogram total. -/
theorem C10_negative_energy_wraps (h : List ℕ) (e : ℤ)
    (hlen : h.length = SP.histSize) (hlo : -(SP.histSize : ℤ) ≤ e) (hhi : e < 0) :
    SP.record h e = some (SP.bump h ((SP.histSize : ℤ) + e).toNat)
      ∧ (SP.bump h ((SP.histSize : ℤ) + e).toNat).sum = h.sum + 1 := by
  have hsz : (SP.histSize : ℤ) = 16384 := by norm_num [SP.histSize]
  have hlen2 : (h.length : ℤ) = 16384 := by rw [hlen, hsz]
  have hidx : ((SP.histSize : ℤ) + e).toNat < h.length := by omega
  constructor
  · rw [SP.record, if_neg (by omega), if_pos ⟨by omega, hhi⟩]
    congr 2
    omega
  · exact SP.bump_sum h _ hidx

/-- Witness for C10: recording energy `-5` into the fresh 16384-bin
histogram increments bin `16379` and raises no error. -/
theorem C10_negative_energy_wraps_witness :
    (List.replicate SP.histSize 0).length = SP.histSize
    ∧ (SP.record (List.replicate SP.histSize 0) (-5)
        = some (SP.bump (List.replicate SP.histSize 0) ((SP.histSize : ℤ) + -5).toNat)
      ∧ (SP.bump (List.replicate SP.histSize 0) ((SP.histSize : ℤ) + -5).toNat).sum
        = (List.replicate SP.histSize 0).sum + 1) :=
  ⟨by simp, C10_negative_energy_wraps (List.replicate SP.histSize 0) (-5)
    (by simp) (by norm_num [SP.histSize]) (by norm_num)⟩

/-- C5: for every pulse built with `0 ≤ start ≤ length` and `tau1 ≠ tau2`,
every in-bounds index `k ≤ start` (so every `k < start` and index `start`
itself) holds the value 0. -/
theorem C5_zero_before_and_at_start (L s : ℕ) (tau1 tau2 height : ℝ)
    (hsL : s ≤ L) (htau : tau1 ≠ tau2) (k : ℕ) (hks : k ≤ s) (hkL : k < L) :
    (SP.pulse L s height tau1 tau2).getD k 0 = 0 := by
  rw [SP.pulse_getD L s tau1 tau2 height k hsL hkL]
  by_cases hk : k < s
  · rw [if_pos hk]
  · have hes : k = s := by omega
    rw [if_neg hk, hes, Nat.sub_self]
    simp [SP.pulseShape_zero, SP.truncToZero_zero]

/-- Witness for C5: the pulse of length 4, start 2, height 5, tau1 = 2,
tau2 = 1 is 0 at index 2 = start. -/
theorem C5_zero_before_and_at_start_witness :
    (2 : ℝ) ≠ 1 ∧ (SP.pulse 4 2 5 2 1).getD 2 0 = 0 :=
  ⟨by norm_num, C5_zero_before_and_at_start 4 2 2 1 5 (by norm_num) (by norm_num) 2
    (le_refl 2) (by norm_num)⟩

theorem exp_neg_half_le_two_thirds : Real.exp (-(1 / 2) : ℝ) ≤ 2 / 3 := by
  rw [Real.exp_neg]
  have h : (3 / 2 : ℝ) ≤ Real.exp (1 / 2) := by
    have := Real.add_one_le_exp (1 / 2 : ℝ)
    linarith
  calc (Real.exp (1 / 2 : ℝ))⁻¹ ≤ (3 / 2 : ℝ)⁻¹ := by
        exact inv_anti₀ (by norm_num) h
    _ = 2 / 3 := by norm_num

theorem one_third_lt_exp_neg_one : (1 / 3 : ℝ) < Real.exp (-1) := by
  rw [Real.exp_neg]
  have h3 : Real.exp 1 < 3 := lt_trans Real.exp_one_lt_d9 (by norm_num)
  have hpos : (0 : ℝ) < Real.exp 1 := Real.exp_pos 1
  have := (inv_lt_inv₀ (by norm_num : (0 : ℝ) < 3) hpos).mpr h3
  calc (1 / 3 : ℝ) = 3⁻¹ := by norm_num
    _ < (Real.exp 1)⁻¹ := this

theorem pulseShape_at_one : SP.pulseShape 2 1 (-1) 1
    = -2 * (Real.exp (-(1 / 2)) - Real.exp (-1)) := by
  rw [SP.pulseShape]
  norm_num

/-- C6 counterexample: the code truncates toward zero, not toward negative
infinity; at length 2, start 0, height -1, tau1 = 2, tau2 = 1 the value at
index 1 lies strictly between -1 and 0, so the code stores 0 while the
claimed floor is -1. -/
theorem C6_floor_counterexample :
    (SP.pulse 2 0 (-1) 2 1).getD 1 0 ≠ ⌊SP.pulseShape 2 1 (-1) 1⌋ := by
  have hd0 : (0 : ℝ) < Real.exp (-(1 / 2)) - Real.exp (-1) := by
    have := Real.exp_lt_exp.mpr (show (-1 : ℝ) < -(1 / 2) by norm_num)
    linarith
  have hd1 : Real.exp (-(1 / 2)) - Real.exp (-1) < 1 / 2 := by
    have h1 := exp_neg_half_le_two_thirds
    have h2 := one_third_lt_exp_neg_one
    linarith
  have hv1 : SP.pulseShape 2 1 (-1) 1 < 0 := by rw [pulseShape_at_one]; linarith
  have hv2 : (-1 : ℝ) < SP.pulseShape 2 1 (-1) 1 := by rw [pulseShape_at_one]; linarith
  have hlhs : (SP.pulse 2 0 (-1) 2 1).getD 1 0
      = SP.truncToZero (SP.pulseShape 2 1 (-1) 1) := by
    rw [SP.pulse_getD 2 0 2 1 (-1) 1 (by norm_num) (by norm_num), if_neg (by norm_num)]
    norm_num
  have htr : SP.truncToZero (SP.pulseShape 2 1 (-1) 1) = 0 := by
    rw [SP.truncToZero, if_neg (by linarith)]
    rw [Int.ceil_eq_iff]
    push_cast
    constructor <;> linarith
  have hfl : ⌊SP.pulseShape 2 1 (-1) 1⌋ = -1 := by
    rw [Int.floor_eq_iff]
    push_cast
    constructor <;> linarith
  rw [hlhs, htr, hfl]
  decide

/-- C6 (amended): for every `start ≤ k < length` and `tau1 ≠ tau2`, the
output at index `k` is the fully evaluated expression
`(tau1/(tau1-tau2)) * height * (exp (-(k-start)/tau1) - exp (-(k-start)/tau2))`
converted to an integer by a single truncation toward zero (`astype(int)`),
applied once to the whole expression, not to intermediate terms; for
nonnegative values this agrees with the claimed floor. -/
theorem C6_single_truncation_toward_zero (L s : ℕ) (tau1 tau2 height : ℝ)
    (hsL : s ≤ L) (htau : tau1 ≠ tau2) (k : ℕ) (hks : s ≤ k) (hkL : k < L) :
    (SP.pulse L s height tau1 tau2).getD k 0
      = SP.truncToZero (SP.pulseShape tau1 tau2 height ((k : ℝ) - (s : ℝ))) := by
  rw [SP.pulse_getD L s tau1 tau2 height k hsL hkL, if_neg (by omega),
    Nat.cast_sub hks]

/-- Witness for C6: the amended statement at length 2, start 0, height -1,
tau1 = 2, tau2 = 1, index 1. -/
theorem C6_single_truncation_toward_zero_witness :
    (2 : ℝ) ≠ 1 ∧ (SP.pulse 2 0 (-1) 2 1).getD 1 0
      = SP.truncToZero (SP.pulseShape 2 1 (-1) (((1 : ℕ) : ℝ) - ((0 : ℕ) : ℝ))) :=
  ⟨by norm_num, C6_single_truncation_toward_zero 2 0 2 1 (-1) (by norm_num) (by norm_num) 1
    (by norm_num) (by norm_num)⟩

/-- C9: with start = 3 ≥ length = 2 the pulse constructor raises nothing
and silently returns an array of length 4 (`np.fromfunction` does not
enforce the requested shape), violating the fixed-length contract. -/
theorem C9_start_past_end_silent_garbage :
    (SP.pulse 2 3 1 2 1).length = 4 ∧ (SP.pulse 2 3 1 2 1).length ≠ 2 := by
  have h4 : (SP.pulse 2 3 1 2 1).length = 4 := by
    rw [SP.pulse, SP.pulse_model]
    simp only [List.length_map, List.length_append, List.length_replicate,
      List.length_range]
    norm_num [SP.sliceLen]
  exact ⟨h4, by rw [h4]; decide⟩

/-- C7: for every length `n` and amplitude `A > 0`, the noise call succeeds
and every generated element `v` is an integer with `-A ≤ v < A`. -/
theorem C7_noise_bounds (A : ℤ) (hA : 0 < A) (n : ℕ) (s : ℕ → ℕ) :
    ∃ l, SP.noise s n A = some l ∧ l.length = n ∧ ∀ v ∈ l, -A ≤ v ∧ v < A := by
  have hlohi : (-1 : ℤ) * A < A := by linarith
  refine ⟨_, by rw [SP.noise, SP.randint, if_pos hlohi], by simp, ?_⟩
  intro v hv
  simp only [List.mem_map, List.mem_range] at hv
  obtain ⟨j, _, hj⟩ := hv
  have hpos : (0 : ℤ) < A - -1 * A := by linarith
  have h0 : 0 ≤ ((s j : ℤ)) % (A - -1 * A) := Int.emod_nonneg _ (by omega)
  have h1 : ((s j : ℤ)) % (A - -1 * A) < A - -1 * A := Int.emod_lt_of_pos _ hpos
  constructor <;> omega

/-- Witness for C7: with amplitude 2, stream `j ↦ j`, and length 3, the
noise call succeeds with three elements in `[-2, 2)`. -/
theorem C7_noise_bounds_witness :
    (0 : ℤ) < 2
    ∧ ∃ l, SP.noise (fun j => j) 3 2 = some l ∧ l.length = 3
        ∧ ∀ v ∈ l, -2 ≤ v ∧ v < 2 :=
  ⟨by decide, C7_noise_bounds 2 (by decide) 3 (fun j => j)⟩

/-- C8 counterexample: with amplitude 0 the source calls
`np.random.randint(0, 0, (n,))`, whose range is empty, so the call raises
ValueError instead of returning an all-zero sequence — here at the concrete
length 3. -/
theorem C8_zero_amplitude_counterexample :
    SP.noise (fun _ => 0) 3 0 = none
    ∧ SP.noise (fun _ => 0) 3 0 ≠ some (List.replicate 3 0) := by
  decide

/-- C8 (amended): for every length `n`, calling the noise generator with
amplitude 0 fails (the underlying `randint` range `[0, 0)` is empty and
raises); it does not return an all-zero sequence. -/
theorem C8_zero_amplitude_fails (n : ℕ) (s : ℕ → ℕ) : SP.noise s n 0 = none := by
  rw [SP.noise, SP.randint, if_neg]
  decide

/-- C1: for the subtracted-sum variant, the energy of every signal is the
difference of the two windowed sums arithmetically right-shifted (floor
divided by 2^6 = 64) — Python parses line 113 as `(a - b) >> 6`, so the
shift applies to the difference; moreover on a concrete signal the result
differs from shifting only the second sum. -/
theorem C1_subtracted_shift_applies_to_difference :
    (∀ x : List ℤ, SP.h2energy x
        = Int.fdiv ((SP.window x SP.start_index SP.end_index).sum
            - (SP.window x (SP.start_index - 1000) (SP.end_index - 1000)).sum) 64)
    ∧ SP.h2energy (List.replicate 50096 1)
        ≠ (SP.window (List.replicate 50096 1) SP.start_index SP.end_index).sum
          - SP.asr (SP.window (List.replicate 50096 1)
              (SP.start_index - 1000) (SP.end_index - 1000)).sum 6 := by
  constructor
  · intro x
    rw [SP.h2energy, SP.asr_eq_fdiv]
    norm_num
  · have hA := SP.window_replicate_one SP.start_index SP.end_index 50096 (by norm_num [SP.end_index])
    have hB := SP.window_replicate_one (SP.start_index - 1000) (SP.end_index - 1000) 50096
      (by norm_num [SP.end_index])
    rw [SP.h2energy, hA, hB]
    norm_num [SP.start_index, SP.end_index]
    decide

/-- C2: the quantization of both extraction variants is a true arithmetic
right shift, i.e. floor division by 64 (rounding toward negative infinity)
for every integer operand, including negative ones; in particular
`130 >> 6 = 2`, and on `-130` the arithmetic shift gives `-3` while
truncating division gives `-2`. -/
theorem C2_shift_is_floor_division_by_64 :
    (∀ s : ℤ, SP.asr s 6 = Int.fdiv s 64)
    ∧ (∀ x : List ℤ, SP.h1energy x
        = Int.fdiv (SP.window x SP.start_index SP.end_index).sum 64)
    ∧ (∀ x : List ℤ, SP.h2energy x
        = Int.fdiv ((SP.window x SP.start_index SP.end_index).sum
            - (SP.window x (SP.start_index - 1000) (SP.end_index - 1000)).sum) 64)
    ∧ SP.asr 130 6 = 2
    ∧ SP.asr (-130) 6 = -3
    ∧ Int.tdiv (-130) 64 = -2 := by
  refine ⟨fun s => ?_, fun x => ?_, fun x => ?_, by decide, by decide, by decide⟩
  · rw [SP.asr_eq_fdiv]; norm_num
  · rw [SP.h1energy, SP.asr_eq_fdiv]; norm_num
  · rw [SP.h2energy, SP.asr_eq_fdiv]; norm_num
